import Mathlib

/-!
Shallow embedding of the serial monitor application (src/main.rs).

The program is an egui application around one `SerialMonitorApp` struct.
The embedding models its pure data and its state transitions:

* Rust `str::trim` / `str::split_whitespace` / `str::starts_with` are
  modelled on `List Char` (`trimWs`, `splitWs`, `beginsWith`), with the
  Unicode `White_Space` code points of `char::is_whitespace`.
* `SerialMonitorApp::parse_data` is `parse_data`; the external
  `str::parse::<f64>` token parser is a parameter `pv : List Char → Option α`
  (the claims hold for every such parser, values stay abstract).
* `PlotData` (one sample buffer) keeps its Rust fields; `Instant` and the
  elapsed-seconds duration are abstract types `τ` and `δ` with an abstract
  `elp : τ → τ → δ` standing for `now.elapsed(start)`.
* Fallible external actions (the result of `serialport::open`, of `write`,
  the bytes a `read` returns) are parameters of the transition functions;
  each transition also returns the list of transport operations (`PortOp`)
  it performs, so that statements such as `no port open happens` are
  expressible.
* Hex-input decoding follows `send_data` byte-for-byte: the Rust code
  slices the space-stripped `String` at byte offsets `i..i+2`, which
  panics when the offset is not a char boundary; the model returns
  `Option` and yields `none` exactly on those panicking inputs.
-/

namespace SerialMonitor

/-- Unicode White_Space code points, the predicate of Rust
`char::is_whitespace` used by `str::trim` and `str::split_whitespace`. -/
def isRustWhitespace (c : Char) : Bool :=
  decide (c.toNat = 0x20 ∨ (0x9 ≤ c.toNat ∧ c.toNat ≤ 0xD) ∨ c.toNat = 0x85 ∨
    c.toNat = 0xA0 ∨ c.toNat = 0x1680 ∨ (0x2000 ≤ c.toNat ∧ c.toNat ≤ 0x200A) ∨
    c.toNat = 0x2028 ∨ c.toNat = 0x2029 ∨ c.toNat = 0x202F ∨ c.toNat = 0x205F ∨
    c.toNat = 0x3000)

/-- Rust `str::trim`: whitespace removed from both ends. -/
def trimWs (l : List Char) : List Char :=
  ((l.dropWhile isRustWhitespace).reverse.dropWhile isRustWhitespace).reverse

/-- Accumulator pass of `splitWs`; `acc` holds the current token reversed. -/
def splitWsAux : List Char → List Char → List (List Char)
  | [], acc => if acc.isEmpty then [] else [acc.reverse]
  | c :: cs, acc =>
    if isRustWhitespace c then
      if acc.isEmpty then splitWsAux cs [] else acc.reverse :: splitWsAux cs []
    else
      splitWsAux cs (c :: acc)

/-- Rust `str::split_whitespace`: maximal runs of non-whitespace, empty
tokens never produced. -/
def splitWs (l : List Char) : List (List Char) :=
  splitWsAux l []

/-- Rust `str::starts_with` with a literal pattern (first argument). -/
def beginsWith : List Char → List Char → Bool
  | [], _ => true
  | _ :: _, [] => false
  | p :: ps, c :: cs => p == c && beginsWith ps cs

/-- The recognized telemetry marker of `parse_data`:
`line.starts_with` is called with this literal. -/
def marker : List Char := "Pace: FL:".toList

/-- Value of one hexadecimal digit, both cases, as accepted by
`u8::from_str_radix(_, 16)`. -/
def hexDigitVal (c : Char) : Option Nat :=
  if '0' ≤ c ∧ c ≤ '9' then some (c.toNat - 48)
  else if 'a' ≤ c ∧ c ≤ 'f' then some (c.toNat - 87)
  else if 'A' ≤ c ∧ c ≤ 'F' then some (c.toNat - 55)
  else none

/-- Rust `u8::from_str_radix(s, 16)` on a two-character string: two hex
digits, or a leading plus sign before one hex digit (the std parser
accepts an optional leading plus). -/
def parseHexPair (c1 c2 : Char) : Option Nat :=
  match hexDigitVal c1, hexDigitVal c2 with
  | some a, some b => some (16 * a + b)
  | _, _ => if c1 = '+' then hexDigitVal c2 else none

/-- Hex-input decoding loop of `send_data`, on the space-stripped text.
The Rust loop walks byte offsets `i` in steps of two and slices
`&hex_str[i..i+2]` when `i + 2 <= len`; slicing a `String` at a byte
offset that is not a char boundary panics, modelled as `none`.  The
recursion tracks the boundary structure: at each step the offset is a
char boundary, a one-byte char needs a one-byte successor, a two-byte
char is its own (never hex, silently skipped) window, and a three- or
four-byte char puts `i + 2` inside the char. -/
def hexBytesOfChars : List Char → Option (List Nat)
  | [] => some []
  | c :: cs =>
    if c.utf8Size = 2 then hexBytesOfChars cs
    else if c.utf8Size = 1 then
      match cs with
      | [] => some []
      | d :: rest =>
        if d.utf8Size = 1 then
          match parseHexPair c d with
          | some b => (hexBytesOfChars rest).map (fun bs => b :: bs)
          | none => hexBytesOfChars rest
        else none
    else none

/-- Hex-input conversion of `send_data`: spaces removed
(`replace(" ", "")`), then pairs parsed; `none` models a panic. -/
def hexInputBytes (l : List Char) : Option (List Nat) :=
  hexBytesOfChars (l.filter (fun c => c ≠ ' '))

/-- One hex digit of the `{:02X}` formatter: uppercase. -/
def toHexDigit (n : Nat) : Char :=
  if n < 10 then Char.ofNat (48 + n) else Char.ofNat (55 + n)

/-- One byte rendered by `format!("{:02X} ", b)`: two uppercase digits and
a trailing space. -/
def byteToHex (b : Nat) : List Char :=
  [toHexDigit (b / 16), toHexDigit (b % 16), ' ']

/-- Hex display encoding: every byte as `{:02X} `, concatenated (used for
received data and for the `Send:` log line in hex display mode). -/
def hexDisplay (bs : List Nat) : List Char :=
  (bs.map byteToHex).flatten

/-- UTF-8 encoding of one scalar value (Rust `str::bytes` /
`String::as_bytes`). -/
def utf8EncodeChar (c : Char) : List Nat :=
  let n := c.toNat
  if n < 0x80 then [n]
  else if n < 0x800 then
    [0xC0 + n / 64, 0x80 + n % 64]
  else if n < 0x10000 then
    [0xE0 + n / 4096, 0x80 + (n / 64) % 64, 0x80 + n % 64]
  else
    [0xF0 + n / 262144, 0x80 + (n / 4096) % 64, 0x80 + (n / 64) % 64, 0x80 + n % 64]

/-- UTF-8 bytes of a text. -/
def utf8Encode (l : List Char) : List Nat :=
  (l.map utf8EncodeChar).flatten

/-- Rust struct `PlotData`: one sample buffer of parallel value and
timestamp sequences plus the lazily set time origin.  `τ` stands for
`std::time::Instant`, `δ` for the elapsed seconds (`f64` in Rust), `α`
for the sample values (`f64` in Rust). -/
structure PlotData (τ δ α : Type) where
  values : List α
  times : List δ
  start_time : Option τ
deriving DecidableEq

/-- Rust `PlotData::default()`: empty buffers, unset origin. -/
def emptyPlotData {τ δ α : Type} : PlotData τ δ α :=
  { values := [], times := [], start_time := none }

/-- Rust `PlotData::push(value, max_points)`: set the origin on first
use, append the elapsed timestamp and the value, then drop the oldest
pair when the length exceeds `max_points`.  `elp now st` models
`st.elapsed()` read at instant `now`. -/
def PlotData.push {τ δ α : Type} (elp : τ → τ → δ) (pd : PlotData τ δ α)
    (value : α) (max_points : Nat) (now : τ) : PlotData τ δ α :=
  let st := pd.start_time.getD now
  let times := pd.times ++ [elp now st]
  let values := pd.values ++ [value]
  if values.length > max_points then
    { values := values.tail, times := times.tail, start_time := some st }
  else
    { values := values, times := times, start_time := some st }

/-- Clean Plot button of `update_plots`: `values.clear()`,
`times.clear()`, `start_time = None`. -/
def PlotData.clean {τ δ α : Type} (_pd : PlotData τ δ α) : PlotData τ δ α :=
  { values := [], times := [], start_time := none }

/-- A sequence of pushes folded over one buffer: each input is the pushed
value with the instant of the push. -/
def pushSeq {τ δ α : Type} (elp : τ → τ → δ) (m : Nat) (pd : PlotData τ δ α)
    (inputs : List (α × τ)) : PlotData τ δ α :=
  inputs.foldl (fun pd x => pd.push elp x.1 m x.2) pd

/-- Rust struct `PlotWindow`: four sample buffers and the plot controls. -/
structure PlotWindow (τ δ α : Type) where
  is_open : Bool
  format : List Char
  plot_data : List (PlotData τ δ α)
  names : List (List Char)
  max_points : Nat
  is_paused : Bool
deriving DecidableEq

/-- Rust `PlotWindow::default()`. -/
def defaultPlotWindow {τ δ α : Type} : PlotWindow τ δ α :=
  { is_open := false
    format := "Pace: FL: %% FR: %% RL: %% RR: %%".toList
    plot_data := List.replicate 4 emptyPlotData
    names := ["FL".toList, "FR".toList, "RL".toList, "RR".toList]
    max_points := 1000
    is_paused := false }

/-- Token-collecting part of `parse_data`: trim, check the marker, then
push every token of the whole trimmed line that the float parser `pv`
accepts, in order. -/
def collectValues {α : Type} (pv : List Char → Option α) (line : List Char) : List α :=
  let l := trimWs line
  if beginsWith marker l then
    (splitWs l).foldl (fun acc p => match pv p with | some v => acc ++ [v] | none => acc) []
  else []

/-- Match decision of `parse_data`: a frame is produced exactly when four
values were collected (the spec's `parseLine`). -/
def parseFrame {α : Type} (pv : List Char → Option α) (line : List Char) :
    Option (List α) :=
  let vs := collectValues pv line
  if vs.length = 4 then some vs else none

/-- Rust `SerialMonitorApp::parse_data` as a transition of the plot
window: early return when the window is closed or paused, otherwise push
a collected frame of exactly four values into the four buffers
(`plot_data[i].push(values[i], max_points)`). -/
def parse_data {τ δ α : Type} (elp : τ → τ → δ) (pv : List Char → Option α)
    (pw : PlotWindow τ δ α) (now : τ) (line : List Char) : PlotWindow τ δ α :=
  if !pw.is_open || pw.is_paused then pw
  else
    let vs := collectValues pv line
    if vs.length = 4 then
      { pw with plot_data :=
          List.zipWith (fun pd v => pd.push elp v pw.max_points now) pw.plot_data vs }
    else pw

/-- Operations the app issues to the serial transport and thread layer;
recorded so that statements like `no open call happens` are formal. -/
inductive PortOp : Type
  | openPort (path : List Char) (baud : Nat)
  | setDTR (level : Bool)
  | setRTS (level : Bool)
  | clearAll
  | spawnReader
  | write (bytes : List Nat)
  | sleepMs (n : Nat)
deriving DecidableEq

/-- Rust struct `SerialMonitorApp`.  The `Option<Arc<Mutex<SerialPort>>>`
port handle and the `Option<Receiver<String>>` are modelled by their
presence (`Bool`), the only aspect the control flow reads. -/
structure SerialMonitorApp (τ δ α : Type) where
  available_ports : List (List Char)
  selected_port : List Char
  baud_rate : Nat
  received_data : List Char
  port : Bool
  rx : Bool
  send_data : List Char
  is_hex_input : Bool
  is_hex_display : Bool
  common_baud_rates : List Nat
  plot_window : PlotWindow τ δ α
deriving DecidableEq

/-- Rust `SerialMonitorApp::default()`, with the OS port enumeration a
parameter. -/
def initialApp {τ δ α : Type} (ports : List (List Char)) : SerialMonitorApp τ δ α :=
  { available_ports := ports
    selected_port := []
    baud_rate := 115200
    received_data := []
    port := false
    rx := false
    send_data := []
    is_hex_input := false
    is_hex_display := false
    common_baud_rates := [1200, 2400, 4800, 9600, 19200, 38400, 57600, 115200]
    plot_window := defaultPlotWindow }

/-- Rust `SerialMonitorApp::connect`.  `oo` is the outcome of
`serialport::new(..).open()` (external), carrying the error display text
on failure.  With an empty descriptor the method assigns the
`Select one port.` message and returns before any transport call; on a
successful open it lowers DTR and RTS, spawns the reader, clears the OS
buffers and installs the handle and the receiver; on a failed open it
assigns the `Failed:` message.  Every branch assigns (replaces)
`received_data`. -/
def SerialMonitorApp.connect {τ δ α : Type} (oo : Except (List Char) Unit)
    (s : SerialMonitorApp τ δ α) : SerialMonitorApp τ δ α × List PortOp :=
  if s.selected_port.isEmpty then
    ({ s with received_data := "Select one port.".toList }, [])
  else
    match oo with
    | .ok _ =>
      ({ s with port := true, rx := true, received_data := "Connected\n".toList },
        [.openPort s.selected_port s.baud_rate, .setDTR false, .setRTS false,
          .spawnReader, .clearAll])
    | .error e =>
      ({ s with received_data := "Failed: ".toList ++ e ++ ['\n'] },
        [.openPort s.selected_port s.baud_rate])

/-- Rust `SerialMonitorApp::disconnect`: drop the handle and the
receiver, append `Unconnected` to the transcript. -/
def SerialMonitorApp.disconnect {τ δ α : Type} (s : SerialMonitorApp τ δ α) :
    SerialMonitorApp τ δ α :=
  { s with port := false, rx := false,
           received_data := s.received_data ++ "Unconnected\n".toList }

/-- Rust `SerialMonitorApp::send_data` (the method; the struct field of
the same name is the input text).  Without a handle the body is skipped
entirely.  With one, the outbound bytes are the hex-input decoding or
the raw UTF-8 bytes; `none` propagates the hex-decoding panic.  `writeOk`
is the outcome of `port.write` (external); only a successful write logs
the `Send:` line.  The input text is cleared in every connected case. -/
def SerialMonitorApp.sendData {τ δ α : Type} (writeOk : Bool)
    (s : SerialMonitorApp τ δ α) :
    Option (SerialMonitorApp τ δ α × List PortOp) :=
  if s.port then
    match (if s.is_hex_input then hexInputBytes s.send_data
           else some (utf8Encode s.send_data)) with
    | none => none
    | some data =>
      let log : List Char :=
        if writeOk then
          if s.is_hex_display then "Send: ".toList ++ hexDisplay data ++ ['\n']
          else "Send: ".toList ++ s.send_data ++ ['\n']
        else []
      some ({ s with received_data := s.received_data ++ log, send_data := [] },
        [.write data])
  else some (s, [])

/-- Receive branch of `eframe::App::update`: when a receiver is held and
`try_recv` yields a fragment, append it (hex-rendered in hex display
mode) plus a newline to the transcript and hand the fragment to
`parse_data`. -/
def SerialMonitorApp.update_recv {τ δ α : Type} (elp : τ → τ → δ)
    (pv : List Char → Option α) (s : SerialMonitorApp τ δ α) (now : τ)
    (frag : Option (List Char)) : SerialMonitorApp τ δ α :=
  if s.rx then
    match frag with
    | some data =>
      { s with
        received_data := s.received_data ++
          (if s.is_hex_display then hexDisplay (utf8Encode data) else data) ++ ['\n']
        plot_window := parse_data elp pv s.plot_window now data }
    | none => s
  else s

/-- Clean button of the main panel: `received_data.clear()`. -/
def SerialMonitorApp.clearLog {τ δ α : Type} (s : SerialMonitorApp τ δ α) :
    SerialMonitorApp τ δ α :=
  { s with received_data := [] }

/-- Rust `SerialMonitorApp::reset_device`: with a handle, clear buffers
and pulse DTR; the app state is untouched. -/
def SerialMonitorApp.reset_device {τ δ α : Type} (s : SerialMonitorApp τ δ α) :
    SerialMonitorApp τ δ α × List PortOp :=
  if s.port then
    (s, [.clearAll, .setDTR true, .sleepMs 100, .setDTR false, .sleepMs 100])
  else (s, [])

/-- Outcome of one `port.read` attempt in the background reader thread:
the lock can fail, a read yields bytes, times out, or errors. -/
inductive ReadOutcome : Type
  | lockFailed
  | ok (bytes : List Nat)
  | timedOut
  | ioError (msg : List Char)
deriving DecidableEq

/-- One iteration of the background reader loop, given the read outcome.
`dec` models `String::from_utf8_lossy`.  Result: the fragment sent to
the channel (if any), the transport and sleep operations after the read,
and whether the loop continues; the Rust `loop` has no `break`, so every
branch continues.  A timeout hits `continue`, skipping even the 10 ms
end-of-iteration sleep. -/
def readerIter (dec : List Nat → List Char) :
    ReadOutcome → Option (List Char) × List PortOp × Bool
  | .lockFailed => (none, [.sleepMs 10], true)
  | .ok bs => (if 0 < bs.length then some (dec bs) else none, [.sleepMs 10], true)
  | .timedOut => (none, [], true)
  | .ioError msg =>
    (some ("Error: ".toList ++ msg ++ ['\n']), [.sleepMs 100, .clearAll, .sleepMs 10], true)

/-- Sample instantiation of the abstract float-token parser, used in
concrete evaluations: an unsigned decimal-digit token. -/
def natTokenAux : List Char → Nat → Option Nat
  | [], acc => some acc
  | c :: cs, acc =>
    if '0' ≤ c ∧ c ≤ '9' then natTokenAux cs (acc * 10 + (c.toNat - 48)) else none

/-- Sample token parser: nonempty all-digit tokens only. -/
def natToken (l : List Char) : Option Nat :=
  if l.isEmpty then none else natTokenAux l 0

/-! Helper lemmas. -/

/-- The value-collecting fold of `parse_data` is `filterMap` after the
accumulator. -/
theorem foldl_collect {α : Type} (pv : List Char → Option α) (l : List (List Char)) :
    ∀ acc : List α,
      l.foldl (fun acc p => match pv p with | some v => acc ++ [v] | none => acc) acc
        = acc ++ l.filterMap pv := by
  induction l with
  | nil => intro acc; simp
  | cons t ts ih =>
    intro acc
    cases h : pv t <;> simp [List.foldl_cons, List.filterMap_cons, h, ih]

/-- Tokens accepted by the parser, counted two ways. -/
theorem length_filterMap_countP {α : Type} (pv : List Char → Option α)
    (l : List (List Char)) :
    (l.filterMap pv).length = l.countP fun t => (pv t).isSome := by
  induction l with
  | nil => rfl
  | cons t ts ih =>
    cases h : pv t <;> simp [List.filterMap_cons, List.countP_cons, h, ih]

/-- Collected values, in closed form. -/
theorem collectValues_eq {α : Type} (pv : List Char → Option α) (line : List Char) :
    collectValues pv line =
      if beginsWith marker (trimWs line) then (splitWs (trimWs line)).filterMap pv
      else [] := by
  unfold collectValues
  split_ifs with hb <;> simp [hb, foldl_collect]

/-! Claim theorems: the line parser. -/

/-- C1: `parse_data` yields a frame exactly when the trimmed line begins
with the recognized marker and exactly four whitespace-delimited tokens
anywhere on the line are accepted by the float parser; the frame is
those four values in token order, and on no match no buffer is
modified. -/
theorem parse_data_frame_spec {τ δ α : Type} (pv : List Char → Option α)
    (line : List Char) :
    (∀ vs : List α,
      parseFrame pv line = some vs ↔
        (beginsWith marker (trimWs line) = true
          ∧ (splitWs (trimWs line)).countP (fun t => (pv t).isSome) = 4
          ∧ vs = (splitWs (trimWs line)).filterMap pv))
    ∧ (parseFrame pv line = none →
        ∀ (elp : τ → τ → δ) (pw : PlotWindow τ δ α) (now : τ),
          parse_data elp pv pw now line = pw) := by
  constructor
  · intro vs
    rw [parseFrame, collectValues_eq]
    cases hb : beginsWith marker (trimWs line) with
    | false => simp
    | true =>
      rw [← length_filterMap_countP]
      by_cases hl : ((splitWs (trimWs line)).filterMap pv).length = 4 <;>
        simp [hl, eq_comm]
  · intro h elp pw now
    have hlen : (collectValues pv line).length ≠ 4 := by
      intro hl
      rw [parseFrame, if_pos hl] at h
      exact Option.noConfusion h
    by_cases hg : (!pw.is_open || pw.is_paused)
    · simp [parse_data, hg]
    · simp [parse_data, hg, hlen]

/-- C10: while the plot window is closed or plotting is paused,
`parse_data` returns at once and leaves the whole plot window, in
particular all four sample buffers, unchanged: such frames are dropped,
not queued. -/
theorem parse_data_gate_spec {τ δ α : Type} (elp : τ → τ → δ)
    (pv : List Char → Option α) (pw : PlotWindow τ δ α) (now : τ)
    (line : List Char) (h : pw.is_open = false ∨ pw.is_paused = true) :
    parse_data elp pv pw now line = pw := by
  rcases h with h | h <;> simp [parse_data, h]

/-- Witness for C10 at the default (closed) plot window and a telemetry
line that would otherwise parse. -/
theorem parse_data_gate_spec_witness :
    parse_data (fun a b => a - b) natToken
      (defaultPlotWindow : PlotWindow Nat Nat Nat) 0
      "Pace: FL: 1 2 3 4".toList = defaultPlotWindow :=
  parse_data_gate_spec _ _ _ _ _ (Or.inl rfl)

/-! Claim theorems: the background reader loop. -/

/-- C9: a timed-out read sends nothing to the channel; every branch of
the reader loop continues (the loop has no exit), and a fragment is
produced exactly by a successful read of more than zero bytes or by a
non-timeout I/O error. -/
theorem reader_timeout_spec (dec : List Nat → List Char) (r : ReadOutcome) :
    (readerIter dec ReadOutcome.timedOut).1 = none
    ∧ (readerIter dec r).2.2 = true
    ∧ ((readerIter dec r).1.isSome = true ↔
        (∃ bs, r = ReadOutcome.ok bs ∧ 0 < bs.length)
          ∨ ∃ msg, r = ReadOutcome.ioError msg) := by
  refine ⟨rfl, ?_, ?_⟩ <;>
    cases r with
    | lockFailed => simp [readerIter]
    | ok bs => by_cases h : 0 < bs.length <;> simp [readerIter, h]
    | timedOut => simp [readerIter]
    | ioError msg => simp [readerIter]

/-! Claim theorems: the sample buffer. -/

/-- Reverse-structural induction for lists, used for push sequences. -/
theorem snocInduction {β : Type} {P : List β → Prop} (h0 : P [])
    (h1 : ∀ xs x, P xs → P (xs ++ [x])) : ∀ l, P l := fun l =>
  List.reverseRecOn l h0 h1

/-- Appending one push to a push sequence. -/
theorem pushSeq_append {τ δ α : Type} (elp : τ → τ → δ) (m : Nat)
    (pd : PlotData τ δ α) (xs : List (α × τ)) (x : α × τ) :
    pushSeq elp m pd (xs ++ [x]) = (pushSeq elp m pd xs).push elp x.1 m x.2 := by
  simp [pushSeq, List.foldl_append]

/-- Value sequence of one push, with the eviction `if` exposed. -/
theorem push_values_eq {τ δ α : Type} (elp : τ → τ → δ) (pd : PlotData τ δ α)
    (v : α) (m : Nat) (now : τ) :
    (pd.push elp v m now).values =
      if (pd.values ++ [v]).length > m then (pd.values ++ [v]).tail
      else pd.values ++ [v] := by
  simp only [PlotData.push]
  split_ifs <;> rfl

/-- Timestamp sequence of one push, with the eviction `if` exposed. -/
theorem push_times_eq {τ δ α : Type} (elp : τ → τ → δ) (pd : PlotData τ δ α)
    (v : α) (m : Nat) (now : τ) :
    (pd.push elp v m now).times =
      if (pd.values ++ [v]).length > m then
        (pd.times ++ [elp now (pd.start_time.getD now)]).tail
      else pd.times ++ [elp now (pd.start_time.getD now)] := by
  simp only [PlotData.push]
  split_ifs <;> rfl

/-- Ring-buffer shape of a push sequence from the empty buffer: the
values are the last `m` pushed values and the two sequences keep equal
length. -/
theorem pushSeq_values_drop {τ δ α : Type} (elp : τ → τ → δ) (m : Nat) :
    ∀ inputs : List (α × τ),
      (pushSeq elp m emptyPlotData inputs).values
          = (inputs.map Prod.fst).drop (inputs.length - m)
        ∧ (pushSeq elp m emptyPlotData inputs).times.length
          = (pushSeq elp m emptyPlotData inputs).values.length := by
  refine snocInduction (by simp [pushSeq, emptyPlotData]) ?_
  intro xs x ih
  obtain ⟨ihv, iht⟩ := ih
  rw [pushSeq_append]
  set pd := pushSeq elp m emptyPlotData xs with hpd
  have hlv : pd.values.length = xs.length - (xs.length - m) := by
    rw [ihv, List.length_drop, List.length_map]
  rw [push_values_eq, push_times_eq]
  split_ifs with hc
  · -- eviction: the appended pair and the evicted head cancel
    simp only [List.length_append, List.length_cons, List.length_nil] at hc
    constructor
    · rcases Nat.eq_zero_or_pos m with hm | hm
      · have hnil : pd.values = [] := by
          rw [ihv, hm]
          exact List.drop_eq_nil_of_le (by simp)
        rw [hnil, hm]
        simp [List.drop_eq_nil_of_le]
      · have hmn : m ≤ xs.length := by omega
        have hne : pd.values ≠ [] := by
          intro hnil
          rw [hnil] at hlv
          simp at hlv
          omega
        obtain ⟨a, as, ha⟩ := List.exists_cons_of_ne_nil hne
        rw [ha, List.cons_append, List.tail_cons]
        have hdrop : as = (xs.map Prod.fst).drop (xs.length - m + 1) := by
          have ht := List.tail_drop (xs.map Prod.fst) (xs.length - m)
          rw [← ihv, ha, List.tail_cons] at ht
          exact ht
        have harith : xs.length - m + 1 = (xs ++ [x]).length - m := by
          simp
          omega
        rw [hdrop, harith, List.map_append,
          List.drop_append_of_le_length (by simp; omega)]
        simp
    · simp [List.length_tail, List.length_append, iht]
  · -- no eviction yet: the whole history is kept
    simp only [List.length_append, List.length_cons, List.length_nil] at hc
    constructor
    · have hnm : xs.length < m := by omega
      have h1 : xs.length - m = 0 := by omega
      have h2 : (xs ++ [x]).length - m = 0 := by simp; omega
      rw [ihv, h1, h2]
      simp
    · simp [iht]

/-- C2: pushing any sequence of samples with a fixed `maxPoints` into a
fresh buffer leaves, after each push, exactly the most recent
`min(callCount, maxPoints)` values in push order, the oldest evicted
first (the statement quantifies over the whole sequence, so it covers
the state after every push). -/
theorem push_ring_buffer_spec {τ δ α : Type} (elp : τ → τ → δ) (m : Nat)
    (inputs : List (α × τ)) :
    (pushSeq elp m emptyPlotData inputs).values
        = (inputs.map Prod.fst).drop (inputs.length - m)
    ∧ (pushSeq elp m emptyPlotData inputs).values.length = min inputs.length m
    ∧ (pushSeq elp m emptyPlotData inputs).times.length = min inputs.length m := by
  obtain ⟨hv, ht⟩ := pushSeq_values_drop elp m inputs
  have hl : (pushSeq elp m emptyPlotData inputs).values.length = min inputs.length m := by
    rw [hv, List.length_drop, List.length_map]
    omega
  exact ⟨hv, hl, by rw [ht, hl]⟩

/-- C3 counterexample: two pushes with `maxPoints = 2` then one push
with `maxPoints = 1` leave both sequences at length `2 > 1`, because
`push` evicts at most one pair; the invariant `length ≤ max_points`
fails when `max_points` shrinks below the current length. -/
theorem push_invariant_counterexample :
    (((pushSeq (fun a b => a - b) 2 (emptyPlotData : PlotData Nat Nat Nat)
        [(5, 0), (6, 1)]).push (fun a b => a - b) 7 1 2).values.length = 2)
    ∧ (((pushSeq (fun a b => a - b) 2 (emptyPlotData : PlotData Nat Nat Nat)
        [(5, 0), (6, 1)]).push (fun a b => a - b) 7 1 2).times.length = 2)
    ∧ ¬ (((pushSeq (fun a b => a - b) 2 (emptyPlotData : PlotData Nat Nat Nat)
        [(5, 0), (6, 1)]).push (fun a b => a - b) 7 1 2).values.length ≤ 1) := by
  decide

/-- C3 amended: after every operation the two sequences have equal
length; a push bounds the length by `max(previous length, maxPoints)`,
and keeps `length ≤ maxPoints` whenever it held before the push (so the
invariant holds as long as `maxPoints` does not shrink below the current
length); `clear` empties both sequences.  A push with `maxPoints`
smaller than the current length evicts only one pair and can leave
`length > maxPoints`. -/
theorem push_invariant_amended {τ δ α : Type} (elp : τ → τ → δ)
    (pd : PlotData τ δ α) (v : α) (m : Nat) (now : τ)
    (h : pd.times.length = pd.values.length) :
    ((pd.push elp v m now).times.length = (pd.push elp v m now).values.length
      ∧ (pd.push elp v m now).values.length ≤ max pd.values.length m
      ∧ (pd.values.length ≤ m → (pd.push elp v m now).values.length ≤ m))
    ∧ ((pd.clean).times.length = (pd.clean).values.length
      ∧ (pd.clean).values.length ≤ m) := by
  refine ⟨?_, by simp [PlotData.clean]⟩
  rw [push_times_eq, push_values_eq]
  split_ifs with hc <;>
    simp only [List.length_tail, List.length_append, List.length_cons,
      List.length_nil] at hc ⊢
  · exact ⟨by omega,
      by have := Nat.le_max_left pd.values.length m; omega,
      fun hle => by omega⟩
  · exact ⟨by omega,
      by have := Nat.le_max_right pd.values.length m; omega,
      fun hle => by omega⟩

/-- Witness for the amended C3 at a concrete push on the fresh buffer. -/
theorem push_invariant_amended_witness :
    ((((emptyPlotData : PlotData Nat Nat Nat).push (fun a b => a - b) 9 5 0).times.length
        = ((emptyPlotData : PlotData Nat Nat Nat).push (fun a b => a - b) 9 5 0).values.length
      ∧ ((emptyPlotData : PlotData Nat Nat Nat).push (fun a b => a - b) 9 5 0).values.length
        ≤ max (emptyPlotData : PlotData Nat Nat Nat).values.length 5
      ∧ ((emptyPlotData : PlotData Nat Nat Nat).values.length ≤ 5 →
          ((emptyPlotData : PlotData Nat Nat Nat).push (fun a b => a - b) 9 5 0).values.length ≤ 5))
    ∧ (((emptyPlotData : PlotData Nat Nat Nat).clean).times.length
        = ((emptyPlotData : PlotData Nat Nat Nat).clean).values.length
      ∧ ((emptyPlotData : PlotData Nat Nat Nat).clean).values.length ≤ 5)) :=
  push_invariant_amended (fun a b => a - b) emptyPlotData 9 5 0 rfl

/-! Claim theorems: hex encode and decode. -/

/-- Two-step structural induction on character lists, matching the
pair-wise hex decoding recursion. -/
theorem twoStepList {P : List Char → Prop} (h0 : P []) (h1 : ∀ c, P [c])
    (h2 : ∀ c1 c2 rest, P rest → P (c1 :: c2 :: rest)) : ∀ l, P l
  | [] => h0
  | [c] => h1 c
  | c1 :: c2 :: rest => h2 c1 c2 rest (twoStepList h0 h1 h2 rest)

/-- The hex formatter and parser invert each other on one digit. -/
theorem hexDigitVal_toHexDigit : ∀ d < 16, hexDigitVal (toHexDigit d) = some d := by
  decide

/-- Hex digits are not the space character. -/
theorem toHexDigit_ne_space : ∀ d < 16, toHexDigit d ≠ ' ' := by
  decide

/-- Hex digits are single-byte characters. -/
theorem toHexDigit_utf8Size : ∀ d < 16, (toHexDigit d).utf8Size = 1 := by
  decide

/-- A formatted byte parses back to itself. -/
theorem parseHexPair_encode (b : Nat) (hb : b < 256) :
    parseHexPair (toHexDigit (b / 16)) (toHexDigit (b % 16)) = some b := by
  have h1 : b / 16 < 16 := by omega
  have h2 : b % 16 < 16 := by omega
  simp [parseHexPair, hexDigitVal_toHexDigit _ h1, hexDigitVal_toHexDigit _ h2,
    Nat.div_add_mod]

/-- Removing the spaces of the hex display leaves the bare digit pairs. -/
theorem strip_hexDisplay : ∀ bs : List Nat, (∀ b ∈ bs, b < 256) →
    (hexDisplay bs).filter (fun c => c ≠ ' ')
      = (bs.map fun b => [toHexDigit (b / 16), toHexDigit (b % 16)]).flatten := by
  intro bs
  induction bs with
  | nil => intro _; rfl
  | cons b rest ih =>
    intro h
    have hb := h b (List.mem_cons_self b rest)
    have h1 : b / 16 < 16 := by omega
    have h2 : b % 16 < 16 := by omega
    have ihr := ih fun x hx => h x (List.mem_cons_of_mem b hx)
    simp only [hexDisplay] at ihr ⊢
    simp only [List.map_cons, List.flatten_cons, List.filter_append]
    rw [ihr]
    congr 1
    simp [byteToHex, List.filter_cons, toHexDigit_ne_space _ h1,
      toHexDigit_ne_space _ h2]

/-- Decoding the bare digit pairs recovers the bytes. -/
theorem decode_encode : ∀ bs : List Nat, (∀ b ∈ bs, b < 256) →
    hexBytesOfChars
        ((bs.map fun b => [toHexDigit (b / 16), toHexDigit (b % 16)]).flatten)
      = some bs := by
  intro bs
  induction bs with
  | nil => intro _; rfl
  | cons b rest ih =>
    intro h
    have hb := h b (List.mem_cons_self b rest)
    have h1 : b / 16 < 16 := by omega
    have h2 : b % 16 < 16 := by omega
    simp only [List.map_cons, List.flatten_cons, List.cons_append, List.nil_append]
    rw [hexBytesOfChars]
    simp [toHexDigit_utf8Size _ h1, toHexDigit_utf8Size _ h2, parseHexPair_encode b hb,
      ih fun x hx => h x (List.mem_cons_of_mem b hx)]

/-- Pair decoding never panics on single-byte (ASCII) input. -/
theorem hexBytes_total : ∀ l : List Char, (∀ x ∈ l, x.utf8Size = 1) →
    (hexBytesOfChars l).isSome = true := by
  refine twoStepList (by intro _; rfl) ?_ ?_
  · intro c h
    have hc := h c (List.mem_cons_self c [])
    rw [hexBytesOfChars]
    simp [hc]
  · intro c1 c2 rest ih h
    have hc1 := h c1 (by simp)
    have hc2 := h c2 (by simp)
    have hr : ∀ x ∈ rest, x.utf8Size = 1 := fun x hx => h x (by simp [hx])
    rw [hexBytesOfChars]
    cases hp : parseHexPair c1 c2 <;> simp [hc1, hc2, hp, ih hr]

/-- An odd trailing single-byte character after an even-length ASCII
body is skipped by the length guard. -/
theorem hexBytes_evenAppend : ∀ l : List Char, (∀ x ∈ l, x.utf8Size = 1) →
    ∀ c : Char, c.utf8Size = 1 → l.length % 2 = 0 →
      hexBytesOfChars (l ++ [c]) = hexBytesOfChars l := by
  refine twoStepList ?_ ?_ ?_
  · intro _ c hc _
    rw [List.nil_append, hexBytesOfChars]
    simp [hc, hexBytesOfChars]
  · intro d _ c _ hlen
    simp at hlen
  · intro c1 c2 rest ih h c hc hlen
    have hc1 := h c1 (by simp)
    have hc2 := h c2 (by simp)
    have hr : ∀ x ∈ rest, x.utf8Size = 1 := fun x hx => h x (by simp [hx])
    have hrl : rest.length % 2 = 0 := by simp at hlen; omega
    rw [List.cons_append, List.cons_append, hexBytesOfChars]
    rw [show hexBytesOfChars (c1 :: c2 :: rest) = _ from rfl, hexBytesOfChars]
    cases hp : parseHexPair c1 c2 <;>
      simp [hc1, hc2, hp, ih hr c hc hrl]

/-- C4 counterexample: a three-byte character (here the euro sign) in
hex-input mode makes `send_data` slice the string inside the character,
a panic (`none`), not a silent skip: re-parsing is not error-free on
every input. -/
theorem hex_input_panic_counterexample :
    (hexInputBytes (['€'] : List Char)).isSome = false := by
  decide

/-- C4 amended: encoding any byte sequence as two-digit uppercase hex
pairs separated by spaces and re-parsing it in hex-input mode reproduces
the bytes.  On input whose characters are single-byte (ASCII), hex-input
parsing never errors, an odd trailing character is skipped and a non-hex
pair is skipped; but a character of three or four UTF-8 bytes (or a
multibyte character straddling a pair boundary) panics, because the code
slices the space-stripped string at byte offsets. -/
theorem hex_round_trip_amended (bs : List Nat) (h : ∀ b ∈ bs, b < 256) :
    hexInputBytes (hexDisplay bs) = some bs
    ∧ (∀ l : List Char, (∀ x ∈ l, x.utf8Size = 1) →
        (hexBytesOfChars l).isSome = true)
    ∧ (∀ (l : List Char) (c : Char), (∀ x ∈ l, x.utf8Size = 1) →
        c.utf8Size = 1 → l.length % 2 = 0 →
        hexBytesOfChars (l ++ [c]) = hexBytesOfChars l)
    ∧ (∀ (c1 c2 : Char) (rest : List Char), c1.utf8Size = 1 → c2.utf8Size = 1 →
        parseHexPair c1 c2 = none →
        hexBytesOfChars (c1 :: c2 :: rest) = hexBytesOfChars rest) := by
  refine ⟨?_, hexBytes_total, fun l c hl hc he => hexBytes_evenAppend l hl c hc he, ?_⟩
  · rw [hexInputBytes, strip_hexDisplay bs h, decode_encode bs h]
  · intro c1 c2 rest hc1 hc2 hp
    rw [hexBytesOfChars]
    simp [hc1, hc2, hp]

/-- Witness for the amended C4 at the spec's own example bytes
`DE AD`. -/
theorem hex_round_trip_amended_witness :
    hexInputBytes (hexDisplay [222, 173]) = some [222, 173] :=
  (hex_round_trip_amended [222, 173] (by decide)).1

/-! Claim theorems: connection lifecycle and the transcript. -/

/-- C5: `connect` with an empty port descriptor performs no transport
operation at all (in particular no open), leaves no port handle and no
receiver installed (the state called from the Start button is
disconnected, `hp`/`hr`), and reports the no-port-selected error text. -/
theorem connect_empty_port_spec {τ δ α : Type} (oo : Except (List Char) Unit)
    (s : SerialMonitorApp τ δ α) (h : s.selected_port = [])
    (hp : s.port = false) (hr : s.rx = false) :
    (SerialMonitorApp.connect oo s).2 = []
    ∧ (SerialMonitorApp.connect oo s).1.port = false
    ∧ (SerialMonitorApp.connect oo s).1.rx = false
    ∧ (SerialMonitorApp.connect oo s).1.received_data = "Select one port.".toList := by
  simp [SerialMonitorApp.connect, h, hp, hr]

/-- Witness for C5 at the freshly started application. -/
theorem connect_empty_port_spec_witness :
    (SerialMonitorApp.connect (Except.ok ())
        (initialApp [] : SerialMonitorApp Nat Nat Nat)).2 = []
    ∧ (SerialMonitorApp.connect (Except.ok ())
        (initialApp [] : SerialMonitorApp Nat Nat Nat)).1.port = false
    ∧ (SerialMonitorApp.connect (Except.ok ())
        (initialApp [] : SerialMonitorApp Nat Nat Nat)).1.rx = false
    ∧ (SerialMonitorApp.connect (Except.ok ())
        (initialApp [] : SerialMonitorApp Nat Nat Nat)).1.received_data
      = "Select one port.".toList :=
  connect_empty_port_spec (Except.ok ()) (initialApp []) rfl rfl rfl

/-- C6 counterexample: `send_data` without a connection is a silent
no-op, not a `NotConnected` failure: the state (including the
transcript, where this program surfaces every error) is returned
unchanged and no write is attempted, so the call is indistinguishable
from silent success. -/
theorem send_not_connected_counterexample :
    SerialMonitorApp.sendData true (initialApp [] : SerialMonitorApp Nat Nat Nat)
      = some (initialApp [], []) := by
  decide

/-- C6 amended: `send_data` with no connection held does nothing: it
performs no write, surfaces no error, and leaves every field, including
the pending input text, unchanged. -/
theorem send_not_connected_amended {τ δ α : Type} (writeOk : Bool)
    (s : SerialMonitorApp τ δ α) (h : s.port = false) :
    SerialMonitorApp.sendData writeOk s = some (s, []) := by
  simp [SerialMonitorApp.sendData, h]

/-- Witness for the amended C6 at a hex-mode state with pending text. -/
theorem send_not_connected_amended_witness :
    SerialMonitorApp.sendData false
        ({ initialApp [] with is_hex_input := true, send_data := "DE AD".toList }
          : SerialMonitorApp Nat Nat Nat)
      = some ({ initialApp [] with is_hex_input := true, send_data := "DE AD".toList }, []) :=
  send_not_connected_amended false
    { initialApp [] with is_hex_input := true, send_data := "DE AD".toList } rfl

/-- C7 counterexample: `disconnect` on an already disconnected state is
not a no-op: it appends another `Unconnected` line to the transcript. -/
theorem disconnect_idempotent_counterexample :
    (SerialMonitorApp.disconnect (initialApp [] : SerialMonitorApp Nat Nat Nat)).received_data
      ≠ (initialApp [] : SerialMonitorApp Nat Nat Nat).received_data := by
  decide

/-- C7 amended: `disconnect` when already disconnected leaves the port
handle and the receiver absent and every other observable except the
transcript unchanged, and does not error; but each call appends one more
`Unconnected` line to the transcript. -/
theorem disconnect_amended {τ δ α : Type} (s : SerialMonitorApp τ δ α)
    (hp : s.port = false) (hr : s.rx = false) :
    (SerialMonitorApp.disconnect s).port = s.port
    ∧ (SerialMonitorApp.disconnect s).rx = s.rx
    ∧ (SerialMonitorApp.disconnect s).received_data
      = s.received_data ++ "Unconnected\n".toList
    ∧ (SerialMonitorApp.disconnect s).selected_port = s.selected_port
    ∧ (SerialMonitorApp.disconnect s).send_data = s.send_data
    ∧ (SerialMonitorApp.disconnect s).plot_window = s.plot_window := by
  simp [SerialMonitorApp.disconnect, hp, hr]

/-- Witness for the amended C7 at the freshly started application. -/
theorem disconnect_amended_witness :
    (SerialMonitorApp.disconnect (initialApp [] : SerialMonitorApp Nat Nat Nat)).port
      = (initialApp [] : SerialMonitorApp Nat Nat Nat).port
    ∧ (SerialMonitorApp.disconnect (initialApp [] : SerialMonitorApp Nat Nat Nat)).rx
      = (initialApp [] : SerialMonitorApp Nat Nat Nat).rx
    ∧ (SerialMonitorApp.disconnect (initialApp [] : SerialMonitorApp Nat Nat Nat)).received_data
      = (initialApp [] : SerialMonitorApp Nat Nat Nat).received_data
        ++ "Unconnected\n".toList
    ∧ (SerialMonitorApp.disconnect (initialApp [] : SerialMonitorApp Nat Nat Nat)).selected_port
      = (initialApp [] : SerialMonitorApp Nat Nat Nat).selected_port
    ∧ (SerialMonitorApp.disconnect (initialApp [] : SerialMonitorApp Nat Nat Nat)).send_data
      = (initialApp [] : SerialMonitorApp Nat Nat Nat).send_data
    ∧ (SerialMonitorApp.disconnect (initialApp [] : SerialMonitorApp Nat Nat Nat)).plot_window
      = (initialApp [] : SerialMonitorApp Nat Nat Nat).plot_window :=
  disconnect_amended (initialApp []) rfl rfl

/-- C8 counterexample: `connect` replaces the transcript instead of
appending: a successful connect overwrites previously logged text (the
prior log `x` is no longer a prefix of, nor present in, the new log). -/
theorem rawlog_append_only_counterexample :
    (SerialMonitorApp.connect (Except.ok ())
        ({ initialApp [] with received_data := ['x'], selected_port := ['p'] }
          : SerialMonitorApp Nat Nat Nat)).1.received_data = "Connected\n".toList
    ∧ beginsWith
        ({ initialApp [] with received_data := ['x'], selected_port := ['p'] }
          : SerialMonitorApp Nat Nat Nat).received_data
        ((SerialMonitorApp.connect (Except.ok ())
          ({ initialApp [] with received_data := ['x'], selected_port := ['p'] }
            : SerialMonitorApp Nat Nat Nat)).1.received_data) = false := by
  decide

/-- C8 amended: the transcript is append-only across `disconnect`,
`send_data`, the receive branch of `update` and `reset_device`, and only
the explicit Clean command empties it; `connect`, however, replaces the
whole transcript with a fresh status line in each of its branches. -/
theorem rawlog_append_only_amended {τ δ α : Type} (elp : τ → τ → δ)
    (pv : List Char → Option α) (s : SerialMonitorApp τ δ α) (writeOk : Bool)
    (now : τ) (frag : Option (List Char)) :
    (∃ t, (SerialMonitorApp.disconnect s).received_data = s.received_data ++ t)
    ∧ (∀ r, SerialMonitorApp.sendData writeOk s = some r →
        ∃ t, r.1.received_data = s.received_data ++ t)
    ∧ (∃ t, (SerialMonitorApp.update_recv elp pv s now frag).received_data
        = s.received_data ++ t)
    ∧ (SerialMonitorApp.reset_device s).1.received_data = s.received_data
    ∧ (SerialMonitorApp.clearLog s).received_data = [] := by
  refine ⟨⟨_, rfl⟩, ?_, ?_, ?_, rfl⟩
  · intro r hr
    by_cases hp : s.port
    · rw [SerialMonitorApp.sendData, if_pos hp] at hr
      cases hdata : (if s.is_hex_input then hexInputBytes s.send_data
          else some (utf8Encode s.send_data)) with
      | none => rw [hdata] at hr; exact Option.noConfusion hr
      | some data =>
        rw [hdata] at hr
        obtain rfl : _ = r := Option.some.inj hr
        exact ⟨_, rfl⟩
    · rw [SerialMonitorApp.sendData, if_neg hp] at hr
      obtain rfl : _ = r := Option.some.inj hr
      exact ⟨[], (List.append_nil _).symm⟩
  · by_cases hrx : s.rx
    · cases frag with
      | none => exact ⟨[], by simp [SerialMonitorApp.update_recv, hrx]⟩
      | some data =>
        refine ⟨(if s.is_hex_display then hexDisplay (utf8Encode data) else data)
          ++ ['\n'], ?_⟩
        simp [SerialMonitorApp.update_recv, hrx]
    · exact ⟨[], by simp [SerialMonitorApp.update_recv, hrx]⟩
  · rw [SerialMonitorApp.reset_device]
    split_ifs <;> rfl

end SerialMonitor
